import Mathlib

/-!
Verification of the blueprint validation engine (pkg/config/validate.go).

The Go code is shallowly embedded: Go `interface{}` values become the
inductive `GoValue`, Go maps become association lists with distinct keys,
Go `error` results become `Option String` (`none` = nil error), and a Go
function that can panic returns `GoRes` with an explicit `panic`
constructor.  Log output that a claim observes is returned explicitly.
External collaborators (the cloud-provider queries of pkg/validators and
the module metadata of pkg/resreader) are outside the embedded file and
are modelled from the spec as parameters or plain structures.
-/

/-- A Go `interface{}` value as it occurs in the validation engine:
a string, a `map[string]interface{}`, the nil interface, or anything else. -/
inductive GoValue where
  | str : String → GoValue
  | strMap : List (String × GoValue) → GoValue
  | null : GoValue
  | other : GoValue

/-- Whether a Go value is the nil interface. -/
def GoValue.isNull : GoValue → Bool
  | .null => true
  | _ => false

/-- Go map lookup with the comma-ok idiom: `v, ok := m[k]`.
Maps are embedded as association lists whose keys are distinct. -/
def lookupA {α : Type} : List (String × α) → String → Option α
  | [], _ => none
  | (k', v) :: rest, k => if k' = k then some v else lookupA rest k

/-- Go map indexing without the ok flag: a missing key yields the zero
value, which for `interface{}` is the nil interface. -/
def indexGo (m : List (String × GoValue)) (k : String) : GoValue :=
  (lookupA m k).getD GoValue.null

/-- Result of a Go call returning `(α, error)`: a value, a non-nil error,
or a runtime panic. -/
inductive GoRes (α : Type) where
  | ok : α → GoRes α
  | err : String → GoRes α
  | panic : GoRes α
deriving DecidableEq

/-- Character-list version of `strings.Split` with separator ".":
`splitDotChars []` is `[[]]`, and a '.' opens a new chunk. -/
def splitDotChars : List Char → List (List Char)
  | [] => [[]]
  | c :: rest =>
    let r := splitDotChars rest
    if c = '.' then [] :: r
    else match r with
      | h :: t => (c :: h) :: t
      | [] => [[c]]

/-- `strings.Split(s, ".")` from the Go standard library: never returns an
empty slice; a string without '.' yields the one-element slice `[s]`. -/
def splitDot (s : String) : List String :=
  (splitDotChars s.toList).map (fun l => String.mk l)

/-- Whether `pat` occurs at the start of `s` (character lists). -/
def charsBegin : List Char → List Char → Bool
  | [], _ => true
  | _ :: _, [] => false
  | p :: ps, c :: cs => p = c && charsBegin ps cs

/-- Whether `pat` occurs anywhere inside `s` (character lists). -/
def charsOccur (pat : List Char) : List Char → Bool
  | [] => pat.isEmpty
  | c :: rest => charsBegin pat (c :: rest) || charsOccur pat rest

/-- Whether the string `pat` occurs as a substring of `s`; used to state
that a diagnostic message does or does not name a key. -/
def strContains (s pat : String) : Bool := charsOccur pat.toList s.toList

/-- Modelled from the spec: `IsLiteralVariable` (defined in the expand
pass, outside the embedded file) recognizes a value wrapped in the
literal-variable delimiter, i.e. of the form `((...))`. -/
def IsLiteralVariable (s : String) : Bool :=
  let cs := s.toList
  decide (4 ≤ cs.length) && (cs.take 2 == ['(', '(']) &&
    (cs.drop (cs.length - 2) == [')', ')'])

/-- Modelled from the spec: `HandleLiteralVariable` (outside the embedded
file) strips the `((` and `))` delimiters from a literal variable. -/
def HandleLiteralVariable (s : String) : String :=
  let cs := s.toList
  String.mk ((cs.drop 2).take (cs.length - 4))

/-- The severity policy constants of the configuration package. -/
inductive SeverityLevel where
  | validationIgnore
  | validationWarning
  | validationError
deriving DecidableEq

/-- A requested validator invocation: its name and its supplied inputs
(`validatorConfig` in the configuration package). -/
structure validatorConfig where
  Validator : String
  Inputs : List (String × GoValue)

/-- The part of the parsed blueprint document the validation engine
reads: global variables, severity policy, requested invocations. -/
structure YamlConfig where
  Vars : List (String × GoValue)
  ValidationLevel : SeverityLevel
  Validators : List validatorConfig

/-- The root configuration value under validation. -/
structure BlueprintConfig where
  Config : YamlConfig

/-- Modelled from the spec: the cloud-provider precondition queries of
pkg/validators (outside the embedded file); each returns a nil or
non-nil error. -/
structure CloudAPI where
  TestProjectExists : String → Option String
  TestRegionExists : String → String → Option String
  TestZoneExists : String → String → Option String
  TestZoneInRegion : String → String → String → Option String

/-- `getStringValue`: resolve a literal global-variable reference of the
form `((var.name))` to its string value from the global table.  Indexing
`varSlice[1]` in the Go source panics when the split produced fewer than
two components. -/
def getStringValue (vars : List (String × GoValue)) (inputReference : GoValue) :
    GoRes String :=
  match inputReference with
  | GoValue.str varRef =>
    if IsLiteralVariable varRef then
      match splitDot (HandleLiteralVariable varRef) with
      | varSrc :: varName :: _ =>
        if varSrc = "var" then
          match lookupA vars varName with
          | some val =>
            match val with
            | GoValue.str s => GoRes.ok s
            | _ => GoRes.err ("the global variable " ++ varRef ++ " is not a string")
          | none =>
            GoRes.err ("the value " ++ varRef ++
              " is not a global variable or was not defined")
        else
          GoRes.err ("the value " ++ varRef ++
            " is not a global variable or was not defined")
      | _ => GoRes.panic
    else
      GoRes.err ("the value " ++ varRef ++
        " is not a global variable or was not defined")
  | _ => GoRes.err "the value cannot be cast to a string"

/-- `testInputList`: check the supplied inputs of a validator invocation
against its required-input list.  Returns the log lines produced for
missing inputs together with the returned error (`none` for success).
The source logs each missing required input, fails if any was missing,
and otherwise fails when the cardinalities differ. -/
def testInputList (function : String) (inputs : List (String × GoValue))
    (requiredInputs : List String) : List String × Option String :=
  let missing := requiredInputs.filter (fun r => (lookupA inputs r).isNone)
  let logs := missing.map
    (fun r => "a required input " ++ r ++ " was not provided to " ++ function ++ "!")
  if missing.isEmpty then
    if requiredInputs.length ≠ inputs.length then
      (logs, some ("only " ++ toString requiredInputs.length ++ " inputs " ++
        toString requiredInputs ++ " should be provided to " ++ function))
    else
      (logs, none)
  else
    (logs, some ("at least one required input was not provided to " ++ function))

/-- Modelled from the spec: the name constant of the project-existence
validator (the name constants are defined outside the embedded file). -/
def testProjectExistsName : String := "test_project_exists"

/-- Modelled from the spec: the name constant of the region-existence
validator. -/
def testRegionExistsName : String := "test_region_exists"

/-- Modelled from the spec: the name constant of the zone-existence
validator. -/
def testZoneExistsName : String := "test_zone_exists"

/-- Modelled from the spec: the name constant of the zone-in-region
validator. -/
def testZoneInRegionName : String := "test_zone_in_region"

/-- `testProjectExists`: name check, input-contract check against
`{project_id}`, resolution of `project_id`, then the provider query. -/
def testProjectExists (bc : BlueprintConfig) (cloud : CloudAPI)
    (validator : validatorConfig) : GoRes Unit :=
  let requiredInputs := [ "project_id" ]
  let funcName := testProjectExistsName
  if validator.Validator ≠ funcName then
    GoRes.err ("passed wrong validator to " ++ funcName ++ " implementation")
  else
    match (testInputList validator.Validator validator.Inputs requiredInputs).2 with
    | some e => GoRes.err e
    | none =>
      match getStringValue bc.Config.Vars (indexGo validator.Inputs "project_id") with
      | GoRes.panic => GoRes.panic
      | GoRes.err e => GoRes.err e
      | GoRes.ok projectID =>
        match cloud.TestProjectExists projectID with
        | some e => GoRes.err e
        | none => GoRes.ok ()

/-- `testRegionExists`: as `testProjectExists` but with required inputs
`{project_id, region}` and the region query. -/
def testRegionExists (bc : BlueprintConfig) (cloud : CloudAPI)
    (validator : validatorConfig) : GoRes Unit :=
  let requiredInputs := [ "project_id", "region" ]
  let funcName := testRegionExistsName
  if validator.Validator ≠ funcName then
    GoRes.err ("passed wrong validator to " ++ funcName ++ " implementation")
  else
    match (testInputList validator.Validator validator.Inputs requiredInputs).2 with
    | some e => GoRes.err e
    | none =>
      match getStringValue bc.Config.Vars (indexGo validator.Inputs "project_id") with
      | GoRes.panic => GoRes.panic
      | GoRes.err e => GoRes.err e
      | GoRes.ok projectID =>
        match getStringValue bc.Config.Vars (indexGo validator.Inputs "region") with
        | GoRes.panic => GoRes.panic
        | GoRes.err e => GoRes.err e
        | GoRes.ok region =>
          match cloud.TestRegionExists projectID region with
          | some e => GoRes.err e
          | none => GoRes.ok ()

/-- `testZoneExists`: required inputs `{project_id, zone}` and the zone
query. -/
def testZoneExists (bc : BlueprintConfig) (cloud : CloudAPI)
    (validator : validatorConfig) : GoRes Unit :=
  let requiredInputs := [ "project_id", "zone" ]
  let funcName := testZoneExistsName
  if validator.Validator ≠ funcName then
    GoRes.err ("passed wrong validator to " ++ funcName ++ " implementation")
  else
    match (testInputList validator.Validator validator.Inputs requiredInputs).2 with
    | some e => GoRes.err e
    | none =>
      match getStringValue bc.Config.Vars (indexGo validator.Inputs "project_id") with
      | GoRes.panic => GoRes.panic
      | GoRes.err e => GoRes.err e
      | GoRes.ok projectID =>
        match getStringValue bc.Config.Vars (indexGo validator.Inputs "zone") with
        | GoRes.panic => GoRes.panic
        | GoRes.err e => GoRes.err e
        | GoRes.ok zone =>
          match cloud.TestZoneExists projectID zone with
          | some e => GoRes.err e
          | none => GoRes.ok ()

/-- `testZoneInRegion`: required inputs `{project_id, region, zone}`,
resolved in the source order project, zone, region, then the
zone-in-region query. -/
def testZoneInRegion (bc : BlueprintConfig) (cloud : CloudAPI)
    (validator : validatorConfig) : GoRes Unit :=
  let requiredInputs := [ "project_id", "region", "zone" ]
  let funcName := testZoneInRegionName
  if validator.Validator ≠ funcName then
    GoRes.err ("passed wrong validator to " ++ funcName ++ " implementation")
  else
    match (testInputList validator.Validator validator.Inputs requiredInputs).2 with
    | some e => GoRes.err e
    | none =>
      match getStringValue bc.Config.Vars (indexGo validator.Inputs "project_id") with
      | GoRes.panic => GoRes.panic
      | GoRes.err e => GoRes.err e
      | GoRes.ok projectID =>
        match getStringValue bc.Config.Vars (indexGo validator.Inputs "zone") with
        | GoRes.panic => GoRes.panic
        | GoRes.err e => GoRes.err e
        | GoRes.ok zone =>
          match getStringValue bc.Config.Vars (indexGo validator.Inputs "region") with
          | GoRes.panic => GoRes.panic
          | GoRes.err e => GoRes.err e
          | GoRes.ok region =>
            match cloud.TestZoneInRegion projectID zone region with
            | some e => GoRes.err e
            | none => GoRes.ok ()

/-- `getValidators`: the fixed registry mapping validator names to their
implementations; lookup by name. -/
def getValidators (bc : BlueprintConfig) (cloud : CloudAPI) (name : String) :
    Option (validatorConfig → GoRes Unit) :=
  if name = testProjectExistsName then some (testProjectExists bc cloud)
  else if name = testRegionExistsName then some (testRegionExists bc cloud)
  else if name = testZoneExistsName then some (testZoneExists bc cloud)
  else if name = testZoneInRegionName then some (testZoneInRegion bc cloud)
  else none

/-- The registry key set of `getValidators`. -/
def registryNames : List String :=
  [testProjectExistsName, testRegionExistsName, testZoneExistsName,
    testZoneInRegionName]

/-- The generic error of a failed validation run. -/
def validationErrorMsg : String := "validation failed due to the issues listed above"

/-- Observable state accumulated by the dispatch loop of
`executeValidators`: the error and warning flags, the names looked up
(`processed`), the names whose implementation was invoked (`executed`),
the log lines, and whether a validator panicked. -/
structure ExecState where
  errored : Bool
  warned : Bool
  processed : List String
  executed : List String
  logs : List String
  panicked : Bool
deriving DecidableEq

/-- The dispatch state before any invocation is processed. -/
def initExecState : ExecState :=
  { errored := false, warned := false, processed := [], executed := [],
    logs := [], panicked := false }

/-- The loop body of `executeValidators`: look up each invocation in the
registry; a hit is executed and a failure classified by the severity
policy, a miss always sets the error flag; a panic aborts the loop. -/
def execLoop (bc : BlueprintConfig) (cloud : CloudAPI) :
    List validatorConfig → ExecState → ExecState
  | [], st => st
  | v :: rest, st =>
    match getValidators bc cloud v.Validator with
    | some f =>
      match f v with
      | GoRes.ok _ =>
        execLoop bc cloud rest
          { st with processed := st.processed ++ [v.Validator],
                    executed := st.executed ++ [v.Validator] }
      | GoRes.err e =>
        match bc.Config.ValidationLevel with
        | SeverityLevel.validationWarning =>
          execLoop bc cloud rest
            { st with processed := st.processed ++ [v.Validator],
                      executed := st.executed ++ [v.Validator],
                      warned := true,
                      logs := st.logs ++ ["warning: " ++ e] }
        | _ =>
          execLoop bc cloud rest
            { st with processed := st.processed ++ [v.Validator],
                      executed := st.executed ++ [v.Validator],
                      errored := true,
                      logs := st.logs ++ ["error: " ++ e] }
      | GoRes.panic =>
        { st with processed := st.processed ++ [v.Validator],
                  executed := st.executed ++ [v.Validator],
                  panicked := true }
    | none =>
      execLoop bc cloud rest
        { st with processed := st.processed ++ [v.Validator],
                  errored := true,
                  logs := st.logs ++
                    [v.Validator ++ " is not an implemented validator"] }

/-- `executeValidators`: return success immediately under policy IGNORE;
otherwise run the dispatch loop over all requested invocations and return
the generic validation-failed error exactly when the error flag was set.
A panic inside a validator propagates. -/
def executeValidators (bc : BlueprintConfig) (cloud : CloudAPI) :
    ExecState × GoRes Unit :=
  if bc.Config.ValidationLevel = SeverityLevel.validationIgnore then
    (initExecState, GoRes.ok ())
  else
    let st := execLoop bc cloud bc.Config.Validators initExecState
    if st.panicked then (st, GoRes.panic)
    else if st.errored then (st, GoRes.err validationErrorMsg)
    else (st, GoRes.ok ())

/-- The outcome of looking up one invocation in the registry and running
it: `none` when its name is not registered. -/
def runInv (bc : BlueprintConfig) (cloud : CloudAPI) (v : validatorConfig) :
    Option (GoRes Unit) :=
  match getValidators bc cloud v.Validator with
  | some f => some (f v)
  | none => none

/-- Whether processing `v` sets the dispatch loop's error flag: a
registry miss always does, a failure does under every policy other than
WARNING. -/
def invErrored (bc : BlueprintConfig) (cloud : CloudAPI) (v : validatorConfig) :
    Bool :=
  match runInv bc cloud v with
  | none => true
  | some (GoRes.err _) =>
    match bc.Config.ValidationLevel with
    | SeverityLevel.validationWarning => false
    | _ => true
  | some _ => false

/-- Whether processing `v` sets the warning flag: a failure under policy
WARNING. -/
def invWarned (bc : BlueprintConfig) (cloud : CloudAPI) (v : validatorConfig) :
    Bool :=
  match runInv bc cloud v with
  | some (GoRes.err _) =>
    match bc.Config.ValidationLevel with
    | SeverityLevel.validationWarning => true
    | _ => false
  | _ => false

/-- The log lines processing `v` appends. -/
def invLog (bc : BlueprintConfig) (cloud : CloudAPI) (v : validatorConfig) :
    List String :=
  match runInv bc cloud v with
  | none => [v.Validator ++ " is not an implemented validator"]
  | some (GoRes.err e) =>
    match bc.Config.ValidationLevel with
    | SeverityLevel.validationWarning => ["warning: " ++ e]
    | _ => ["error: " ++ e]
  | some _ => []

/-- Whether the invocation's name is registered, so its implementation
is invoked. -/
def invExecuted (bc : BlueprintConfig) (cloud : CloudAPI) (v : validatorConfig) :
    Bool :=
  (runInv bc cloud v).isSome

/-- Whether running `v` panics. -/
def invPanics (bc : BlueprintConfig) (cloud : CloudAPI) (v : validatorConfig) :
    Bool :=
  match runInv bc cloud v with
  | some GoRes.panic => true
  | _ => false

/-- Whether no invocation in the list panics when run. -/
def noPanic (bc : BlueprintConfig) (cloud : CloudAPI)
    (vs : List validatorConfig) : Bool :=
  vs.all (fun v => !invPanics bc cloud v)

/-- Whether every invocation's name is registered. -/
def allRegistered (bc : BlueprintConfig) (cloud : CloudAPI)
    (vs : List validatorConfig) : Bool :=
  vs.all (fun v => invExecuted bc cloud v)

/-- Whether at least one invocation runs and returns a non-nil error. -/
def anyFails (bc : BlueprintConfig) (cloud : CloudAPI)
    (vs : List validatorConfig) : Bool :=
  vs.any (fun v =>
    match runInv bc cloud v with
    | some (GoRes.err _) => true
    | _ => false)

/-- The first key of the table whose value is the nil interface, in
table order (the embedding of the Go range loop over the vars map). -/
def findNilKey : List (String × GoValue) → Option String
  | [] => none
  | (k, v) :: rest => if v.isNull then some k else findNilKey rest

/-- Whether the `labels` entry, if present, can be cast to
`map[string]interface{}`. -/
def labelsOK (vars : List (String × GoValue)) : Bool :=
  match lookupA vars "labels" with
  | some (GoValue.strMap _) => true
  | some _ => false
  | none => true

/-- `validateVars`: warn when `project_id` is absent, fail when a
`labels` entry is not a string-keyed map, then fail on the first nil
value.  Returns (warned, error). -/
def validateVars (vars : List (String × GoValue)) : Bool × Option String :=
  let warned := (lookupA vars "project_id").isNone
  match lookupA vars "labels" with
  | some (GoValue.strMap _) =>
    match findNilKey vars with
    | some k => (warned, some ("global variable " ++ k ++ " was not set"))
    | none => (warned, none)
  | some _ => (warned, some "vars.labels must be a map")
  | none =>
    match findNilKey vars with
    | some k => (warned, some ("global variable " ++ k ++ " was not set"))
    | none => (warned, none)

/-- One declared infrastructure module instance (`Resource`). -/
structure Resource where
  ID : String
  Source : String
  Kind : String
  Settings : List (String × GoValue)
  Outputs : List String

/-- Modelled from the spec: one input or output variable of a module's
metadata (`resreader.VarInfo`, outside the embedded file): its name and
required flag. -/
structure VarInfo where
  Name : String
  Required : Bool

/-- Modelled from the spec: module metadata
(`resreader.ResourceInfo`, outside the embedded file): the inputs the
module accepts and the outputs it produces. -/
structure ResourceInfo where
  Inputs : List VarInfo
  Outputs : List VarInfo

/-- Modelled from the spec: `GetOutputsAsMap` turns the metadata's output
list into a name-keyed map. -/
def ResourceInfo.GetOutputsAsMap (info : ResourceInfo) :
    List (String × VarInfo) :=
  info.Outputs.map (fun v => (v.Name, v))

/-- Modelled from the spec: the `errorMessages["invalidOutput"]` text for
an output the module does not produce (the message table is outside the
embedded file). -/
def invalidOutputMsg : String := "requested output was not found in the module"

/-- Modelled from the spec: the `errorMessages["extraSetting"]` text for
a setting the module does not accept. -/
def extraSettingMsg : String := "unexpected setting was found"

/-- The range loop of `validateOutputs`: return the error for the first
declared output missing from the outputs map. -/
def findBadOutput (resID : String) (outputsMap : List (String × VarInfo)) :
    List String → Option String
  | [] => none
  | output :: rest =>
    if (lookupA outputsMap output).isSome then findBadOutput resID outputsMap rest
    else some (invalidOutputMsg ++ ", module: " ++ resID ++ " output: " ++ output)

/-- `validateOutputs`: materialize the outputs map only when the resource
declares at least one output, then check each declared output against it.
The Bool records whether `GetOutputsAsMap` was called. -/
def validateOutputs (res : Resource) (resInfo : ResourceInfo) :
    Bool × Option String :=
  let consulted := decide (0 < res.Outputs.length)
  let outputsMap :=
    if 0 < res.Outputs.length then resInfo.GetOutputsAsMap else []
  (consulted, findBadOutput res.ID outputsMap res.Outputs)

/-- The range loop of `validateSettings`: return the error for the first
settings key absent from the accepted-input map. -/
def findBadSetting (resID : String) (inputsMap : List (String × Bool)) :
    List (String × GoValue) → Option String
  | [] => none
  | (k, _) :: rest =>
    if (lookupA inputsMap k).isSome then findBadSetting resID inputsMap rest
    else some (extraSettingMsg ++ ": Module ID: " ++ resID ++ " Setting: " ++ k)

/-- `validateSettings`: build the accepted-input map (name → required
flag) from metadata and require every settings key to appear in it. -/
def validateSettings (res : Resource) (info : ResourceInfo) : Option String :=
  let cVarsInputs := info.Inputs.map (fun input => (input.Name, input.Required))
  findBadSetting res.ID cVarsInputs res.Settings

theorem lookupA_isSome_iff {α : Type} (m : List (String × α)) (k : String) :
    (lookupA m k).isSome = true ↔ k ∈ m.map Prod.fst := by
  induction m with
  | nil => simp [lookupA]
  | cons p rest ih =>
    obtain ⟨k', v⟩ := p
    by_cases h : k' = k
    · subst h; simp [lookupA]
    · simp [lookupA, h, ih, Ne.symm h]

theorem lookupA_isNone_iff {α : Type} (m : List (String × α)) (k : String) :
    (lookupA m k).isNone = true ↔ k ∉ m.map Prod.fst := by
  rw [← lookupA_isSome_iff]
  cases lookupA m k <;> simp

theorem charsBegin_append (p b : List Char) : charsBegin p (p ++ b) = true := by
  induction p with
  | nil => simp [charsBegin]
  | cons c cs ih => simp [charsBegin, ih]

theorem charsOccur_of_charsBegin (p l : List Char) (h : charsBegin p l = true) :
    charsOccur p l = true := by
  cases l with
  | nil => cases p with
    | nil => simp [charsOccur]
    | cons c cs => simp [charsBegin] at h
  | cons c cs => simp [charsOccur, h]

theorem charsOccur_cons (p l : List Char) (c : Char)
    (h : charsOccur p l = true) : charsOccur p (c :: l) = true := by
  simp [charsOccur, h]

theorem charsOccur_append_left (a p l : List Char)
    (h : charsOccur p l = true) : charsOccur p (a ++ l) = true := by
  induction a with
  | nil => simpa using h
  | cons c cs ih => exact charsOccur_cons _ _ _ ih

/-- A message built by string interpolation contains the interpolated
fragment. -/
theorem strContains_interp (a pat b : String) :
    strContains (a ++ pat ++ b) pat = true := by
  have hdata : (a ++ pat ++ b).toList = a.toList ++ (pat.toList ++ b.toList) := by
    simp [String.toList, String.data_append, List.append_assoc]
  rw [strContains, hdata]
  exact charsOccur_append_left _ _ _
    (charsOccur_of_charsBegin _ _ (charsBegin_append _ _))

/-- Exactness of the input contract check: for a duplicate-free required
list, any supplied input map (distinct keys) whose key set differs from
the required set is rejected — the per-name missing check catches every
deficit and the cardinality check then catches every surplus. -/
theorem testInputList_exact_set (function : String)
    (inputs : List (String × GoValue)) (req : List String)
    (hreq : req.Nodup) (hin : (inputs.map Prod.fst).Nodup)
    (hdiff : ∃ k, (k ∈ req ∧ k ∉ inputs.map Prod.fst) ∨
      (k ∈ inputs.map Prod.fst ∧ k ∉ req)) :
    (testInputList function inputs req).2.isSome = true := by
  obtain ⟨k, hk⟩ := hdiff
  rw [testInputList]
  by_cases hm : (req.filter (fun r => (lookupA inputs r).isNone)).isEmpty
  · have hsub : ∀ r ∈ req, r ∈ inputs.map Prod.fst := by
      intro r hr
      by_contra hrn
      have : (lookupA inputs r).isNone = true := (lookupA_isNone_iff _ _).mpr hrn
      have : r ∈ req.filter (fun r => (lookupA inputs r).isNone) :=
        List.mem_filter.mpr ⟨hr, this⟩
      rw [List.isEmpty_iff] at hm
      simp [hm] at this
    rcases hk with ⟨hkr, hkn⟩ | ⟨hkin, hknr⟩
    · exact absurd (hsub k hkr) hkn
    · have hlt : req.length < (inputs.map Prod.fst).length := by
        have hss : req.toFinset ⊂ (inputs.map Prod.fst).toFinset := by
          constructor
          · intro x hx
            exact List.mem_toFinset.mpr (hsub x (List.mem_toFinset.mp hx))
          · intro hcon
            exact hknr (List.mem_toFinset.mp (hcon (List.mem_toFinset.mpr hkin)))
        have hc := Finset.card_lt_card hss
        rwa [List.toFinset_card_of_nodup hreq,
          List.toFinset_card_of_nodup hin] at hc
      have hne : req.length ≠ inputs.length := by
        rw [List.length_map] at hlt
        omega
      simp [hm, hne]
  · simp [hm]

/-- Characterization of the dispatch loop in one pass: when no invocation
panics, the loop visits every invocation, executes exactly the registered
ones, accumulates their logs in order, and the flags are disjunctions of
per-invocation classifications. -/
theorem execLoop_eq (bc : BlueprintConfig) (cloud : CloudAPI)
    (vs : List validatorConfig) :
    ∀ st : ExecState, noPanic bc cloud vs = true →
      execLoop bc cloud vs st =
        { errored := st.errored || vs.any (invErrored bc cloud),
          warned := st.warned || vs.any (invWarned bc cloud),
          processed := st.processed ++ vs.map validatorConfig.Validator,
          executed := st.executed ++
            (vs.filter (invExecuted bc cloud)).map validatorConfig.Validator,
          logs := st.logs ++ (vs.map (invLog bc cloud)).flatten,
          panicked := st.panicked } := by
  induction vs with
  | nil => intro st _; simp [execLoop]
  | cons v rest ih =>
    intro st h
    rw [noPanic, List.all_cons, Bool.and_eq_true] at h
    obtain ⟨hv, hrest⟩ := h
    rw [Bool.not_eq_true'] at hv
    rcases hg : getValidators bc cloud v.Validator with _ | f
    · simp only [execLoop, hg]
      rw [ih _ hrest]
      simp [invErrored, invWarned, invLog, invExecuted, runInv, hg,
        List.append_assoc, Bool.or_assoc]
    · rcases hf : f v with u | e
      · simp only [execLoop, hg, hf]
        rw [ih _ hrest]
        simp [invErrored, invWarned, invLog, invExecuted, runInv, hg, hf,
          List.append_assoc, Bool.or_assoc]
      · rcases hl : bc.Config.ValidationLevel with _ | _ | _
        · simp only [execLoop, hg, hf, hl]
          rw [ih _ hrest]
          simp [invErrored, invWarned, invLog, invExecuted, runInv, hg, hf, hl,
            List.append_assoc, Bool.or_assoc]
        · simp only [execLoop, hg, hf, hl]
          rw [ih _ hrest]
          simp [invErrored, invWarned, invLog, invExecuted, runInv, hg, hf, hl,
            List.append_assoc, Bool.or_assoc]
        · simp only [execLoop, hg, hf, hl]
          rw [ih _ hrest]
          simp [invErrored, invWarned, invLog, invExecuted, runInv, hg, hf, hl,
            List.append_assoc, Bool.or_assoc]
      · exfalso
        simp [invPanics, runInv, hg, hf] at hv

theorem executeValidators_state (bc : BlueprintConfig) (cloud : CloudAPI)
    (h1 : bc.Config.ValidationLevel ≠ SeverityLevel.validationIgnore)
    (h2 : noPanic bc cloud bc.Config.Validators = true) :
    (executeValidators bc cloud).1 =
      { errored := bc.Config.Validators.any (invErrored bc cloud),
        warned := bc.Config.Validators.any (invWarned bc cloud),
        processed := bc.Config.Validators.map validatorConfig.Validator,
        executed := (bc.Config.Validators.filter
          (invExecuted bc cloud)).map validatorConfig.Validator,
        logs := (bc.Config.Validators.map (invLog bc cloud)).flatten,
        panicked := false } := by
  rw [executeValidators]
  rw [if_neg h1]
  rw [execLoop_eq bc cloud _ initExecState h2]
  simp [initExecState]
  split <;> simp

theorem executeValidators_result (bc : BlueprintConfig) (cloud : CloudAPI)
    (h1 : bc.Config.ValidationLevel ≠ SeverityLevel.validationIgnore)
    (h2 : noPanic bc cloud bc.Config.Validators = true) :
    (executeValidators bc cloud).2 =
      if bc.Config.Validators.any (invErrored bc cloud) = true then
        GoRes.err validationErrorMsg
      else GoRes.ok () := by
  rw [executeValidators]
  rw [if_neg h1]
  rw [execLoop_eq bc cloud _ initExecState h2]
  simp [initExecState]
  split <;> simp

theorem findNilKey_isSome (vars : List (String × GoValue))
    (h : vars.any (fun p => p.2.isNull) = true) :
    (findNilKey vars).isSome = true := by
  induction vars with
  | nil => simp at h
  | cons p rest ih =>
    rw [List.any_cons, Bool.or_eq_true] at h
    by_cases hn : p.2.isNull
    · obtain ⟨k, v⟩ := p
      simp only [findNilKey]
      simp only at hn
      simp [hn]
    · obtain ⟨k, v⟩ := p
      simp only at hn
      rcases h with h | h
      · exact absurd h hn
      · simp only [findNilKey]
        rw [Bool.not_eq_true] at hn
        simp [hn, ih h]

theorem findNilKey_mem (vars : List (String × GoValue)) (k : String)
    (h : findNilKey vars = some k) :
    vars.any (fun p => p.1 == k && p.2.isNull) = true := by
  induction vars with
  | nil => simp [findNilKey] at h
  | cons p rest ih =>
    obtain ⟨k', v⟩ := p
    rw [findNilKey] at h
    by_cases hn : v.isNull
    · rw [if_pos hn] at h
      injection h with h
      subst h
      simp [hn]
    · rw [if_neg hn] at h
      simp [ih h]

theorem findBadOutput_found (resID : String) (m : List (String × VarInfo))
    (outs : List String) (h : ∃ o ∈ outs, (lookupA m o).isNone = true) :
    ∃ o, o ∈ outs ∧ (lookupA m o).isNone = true ∧
      findBadOutput resID m outs =
        some (invalidOutputMsg ++ ", module: " ++ resID ++ " output: " ++ o) := by
  induction outs with
  | nil => simp at h
  | cons o rest ih =>
    by_cases ho : (lookupA m o).isSome
    · have hno : (lookupA m o).isNone = false := by
        cases hl : lookupA m o
        · rw [hl] at ho; simp at ho
        · simp
      obtain ⟨o', ho', hn'⟩ := h
      rcases List.mem_cons.mp ho' with rfl | hmem
      · rw [hno] at hn'; cases hn'
      · obtain ⟨o2, h1, h2, h3⟩ := ih ⟨o', hmem, hn'⟩
        refine ⟨o2, List.mem_cons_of_mem _ h1, h2, ?_⟩
        rw [findBadOutput, if_pos ho]
        exact h3
    · rw [Bool.not_eq_true] at ho
      refine ⟨o, List.mem_cons_self _ _, ?_, ?_⟩
      · cases hl : lookupA m o
        · simp
        · rw [hl] at ho; simp at ho
      · rw [findBadOutput, if_neg (by rw [ho]; simp)]

theorem findBadOutput_none (resID : String) (m : List (String × VarInfo))
    (outs : List String) (h : ∀ o ∈ outs, (lookupA m o).isSome = true) :
    findBadOutput resID m outs = none := by
  induction outs with
  | nil => rfl
  | cons o rest ih =>
    rw [findBadOutput, if_pos (h o (List.mem_cons_self _ _))]
    exact ih (fun o' ho' => h o' (List.mem_cons_of_mem _ ho'))

theorem findBadSetting_found (resID : String) (m : List (String × Bool))
    (settings : List (String × GoValue))
    (h : ∃ k ∈ settings.map Prod.fst, (lookupA m k).isNone = true) :
    ∃ k, k ∈ settings.map Prod.fst ∧ (lookupA m k).isNone = true ∧
      findBadSetting resID m settings =
        some (extraSettingMsg ++ ": Module ID: " ++ resID ++ " Setting: " ++ k) := by
  induction settings with
  | nil => simp at h
  | cons p rest ih =>
    obtain ⟨k0, v0⟩ := p
    by_cases hk : (lookupA m k0).isSome
    · obtain ⟨k', hk', hn'⟩ := h
      rw [List.map_cons, List.mem_cons] at hk'
      rcases hk' with rfl | hmem
      · rw [Option.isNone_iff_eq_none] at hn'
        rw [hn'] at hk; simp at hk
      · obtain ⟨k2, h1, h2, h3⟩ := ih ⟨k', hmem, hn'⟩
        refine ⟨k2, by simp [h1], h2, ?_⟩
        rw [findBadSetting, if_pos hk]
        exact h3
    · refine ⟨k0, by simp, ?_, ?_⟩
      · cases hl : lookupA m k0
        · simp
        · rw [hl] at hk; simp at hk
      · rw [findBadSetting, if_neg hk]

theorem findBadSetting_none (resID : String) (m : List (String × Bool))
    (settings : List (String × GoValue))
    (h : ∀ k ∈ settings.map Prod.fst, (lookupA m k).isSome = true) :
    findBadSetting resID m settings = none := by
  induction settings with
  | nil => rfl
  | cons p rest ih =>
    obtain ⟨k0, v0⟩ := p
    rw [findBadSetting, if_pos (h k0 (by simp))]
    exact ih (fun k' hk' => h k' (by simp [hk']))

theorem findBadSetting_congr (resID : String) (m1 m2 : List (String × Bool))
    (settings : List (String × GoValue))
    (h : m1.map Prod.fst = m2.map Prod.fst) :
    findBadSetting resID m1 settings = findBadSetting resID m2 settings := by
  induction settings with
  | nil => rfl
  | cons p rest ih =>
    obtain ⟨k0, v0⟩ := p
    have hiff : (lookupA m1 k0).isSome = (lookupA m2 k0).isSome := by
      by_cases hm : k0 ∈ m1.map Prod.fst
      · rw [(lookupA_isSome_iff m1 k0).mpr hm,
          (lookupA_isSome_iff m2 k0).mpr (h ▸ hm)]
      · have h1 : ¬ (lookupA m1 k0).isSome = true := fun hc =>
          hm ((lookupA_isSome_iff m1 k0).mp hc)
        have h2 : ¬ (lookupA m2 k0).isSome = true := fun hc =>
          hm (h ▸ (lookupA_isSome_iff m2 k0).mp hc)
        rw [Bool.not_eq_true] at h1 h2
        rw [h1, h2]
    rw [findBadSetting, findBadSetting, hiff]
    by_cases hk : (lookupA m2 k0).isSome = true
    · rw [if_pos hk, if_pos hk]; exact ih
    · rw [Bool.not_eq_true] at hk
      rw [hk]
      simp

/-- Whether a Go value is a string. -/
def GoValue.isStr : GoValue → Bool
  | .str _ => true
  | _ => false

/-- Whether a Go value is a string-keyed map. -/
def GoValue.isMapVal : GoValue → Bool
  | .strMap _ => true
  | _ => false

/-- C10: `getStringValue` is not total over its public input domain: the
input `"((projectid))"` is recognized as a literal variable but contains
no '.' separator, so `strings.Split` yields a one-element slice and
indexing `varSlice[1]` panics instead of returning the documented
`(string, error)` result — for every global variable table. -/
theorem getStringValue_no_dot_panics (vars : List (String × GoValue)) :
    getStringValue vars (GoValue.str "((projectid))") = GoRes.panic := by
  rfl

/-- C6: the Literal Reference Resolver on an input of the form
`((var.X))`: when the global table maps `X` to a string `s` it returns
`s` with no error; when `X` is absent, or present but not a string, it
returns an error message naming the reference.  The embedding is a pure
function, so the lookup has no side effects. -/
theorem getStringValue_literal_lookup (vars : List (String × GoValue))
    (ref X : String) (rest : List String)
    (h1 : IsLiteralVariable ref = true)
    (h2 : splitDot (HandleLiteralVariable ref) = "var" :: X :: rest) :
    (∀ s, lookupA vars X = some (GoValue.str s) →
      getStringValue vars (GoValue.str ref) = GoRes.ok s) ∧
    (lookupA vars X = none →
      getStringValue vars (GoValue.str ref) =
        GoRes.err ("the value " ++ ref ++
          " is not a global variable or was not defined") ∧
      strContains ("the value " ++ ref ++
        " is not a global variable or was not defined") ref = true) ∧
    (∀ v, lookupA vars X = some v → v.isStr = false →
      getStringValue vars (GoValue.str ref) =
        GoRes.err ("the global variable " ++ ref ++ " is not a string") ∧
      strContains ("the global variable " ++ ref ++ " is not a string")
        ref = true) := by
  refine ⟨?_, ?_, ?_⟩
  · intro s hs
    simp only [getStringValue, h1, if_true, h2]
    rw [hs]
  · intro hs
    refine ⟨?_, strContains_interp "the value " ref
      " is not a global variable or was not defined"⟩
    simp only [getStringValue, h1, if_true, h2]
    rw [hs]
  · intro v hv hstr
    constructor
    · simp only [getStringValue, h1, if_true, h2]
      rw [hv]
      cases v with
      | str s => simp [GoValue.isStr] at hstr
      | strMap m => simp
      | null => simp
      | other => simp
    · exact strContains_interp "the global variable " ref " is not a string"

/-- C8: `validateOutputs` fails, naming the resource id and a missing
output, for every resource declaring an output absent from the module
metadata's output set; for a resource declaring no outputs it succeeds
and `GetOutputsAsMap` is never called (first component false). -/
theorem validateOutputs_spec (res : Resource) (info : ResourceInfo) :
    ((∃ o, o ∈ res.Outputs ∧ o ∉ info.Outputs.map VarInfo.Name) →
      ∃ o, o ∈ res.Outputs ∧ o ∉ info.Outputs.map VarInfo.Name ∧
        (validateOutputs res info).2 =
          some (invalidOutputMsg ++ ", module: " ++ res.ID ++ " output: " ++ o)) ∧
    (res.Outputs = [] → validateOutputs res info = (false, none)) := by
  have hfst : info.GetOutputsAsMap.map Prod.fst = info.Outputs.map VarInfo.Name := by
    simp [ResourceInfo.GetOutputsAsMap]
  constructor
  · rintro ⟨o, ho, hn⟩
    have hpos : 0 < res.Outputs.length := by
      cases hOut : res.Outputs
      · rw [hOut] at ho; simp at ho
      · simp [hOut]
    have hnone : (lookupA info.GetOutputsAsMap o).isNone = true := by
      rw [lookupA_isNone_iff, hfst]
      exact hn
    obtain ⟨o2, h1, h2, h3⟩ :=
      findBadOutput_found res.ID info.GetOutputsAsMap res.Outputs ⟨o, ho, hnone⟩
    refine ⟨o2, h1, ?_, ?_⟩
    · rw [← hfst, ← lookupA_isNone_iff]
      exact h2
    · rw [validateOutputs]
      simp only [if_pos hpos]
      exact h3
  · intro h
    rw [validateOutputs, h]
    simp [findBadOutput]

/-- C9: `validateSettings` fails, naming the resource id and the
offending key, for every resource with a settings key the module's
inputs do not declare; when every settings key is an accepted input name
it succeeds, and the outcome is independent of the inputs' required
flags. -/
theorem validateSettings_spec (res : Resource) (info : ResourceInfo) :
    ((∃ k, k ∈ res.Settings.map Prod.fst ∧ k ∉ info.Inputs.map VarInfo.Name) →
      ∃ k, k ∈ res.Settings.map Prod.fst ∧ k ∉ info.Inputs.map VarInfo.Name ∧
        validateSettings res info =
          some (extraSettingMsg ++ ": Module ID: " ++ res.ID ++
            " Setting: " ++ k)) ∧
    ((∀ k ∈ res.Settings.map Prod.fst, k ∈ info.Inputs.map VarInfo.Name) →
      validateSettings res info = none) ∧
    (∀ flags : List VarInfo, flags.map VarInfo.Name = info.Inputs.map VarInfo.Name →
      validateSettings res { info with Inputs := flags } =
        validateSettings res info) := by
  have hfst : (info.Inputs.map (fun input => (input.Name, input.Required))).map
      Prod.fst = info.Inputs.map VarInfo.Name := by
    simp
  refine ⟨?_, ?_, ?_⟩
  · rintro ⟨k, hk, hn⟩
    have hnone : (lookupA (info.Inputs.map
        (fun input => (input.Name, input.Required))) k).isNone = true := by
      rw [lookupA_isNone_iff, hfst]
      exact hn
    obtain ⟨k2, h1, h2, h3⟩ := findBadSetting_found res.ID _ res.Settings
      ⟨k, hk, hnone⟩
    refine ⟨k2, h1, ?_, h3⟩
    rw [← hfst, ← lookupA_isNone_iff]
    exact h2
  · intro h
    apply findBadSetting_none
    intro k hk
    rw [lookupA_isSome_iff, hfst]
    exact h k hk
  · intro flags hflags
    apply findBadSetting_congr
    have : List.map (Prod.fst ∘ fun input => (input.Name, input.Required)) flags =
        List.map VarInfo.Name flags := by
      simp [Function.comp]
    simp only [List.map_map]
    rw [this, hflags]
    simp [Function.comp]

/-- The four fixed required-input lists of the precondition validators. -/
def fixedRequiredLists : List (List String) :=
  [["project_id"], ["project_id", "region"], ["project_id", "zone"],
    ["project_id", "region", "zone"]]

/-- C2: the input contract check fails for every invocation whose
supplied key set differs from the required set, missing or extra; in
particular invoking test_region_exists with only project_id fails and
the missing-input log line names "region". -/
theorem testInputList_rejects_set_mismatch :
    (∀ (function : String) (inputs : List (String × GoValue))
        (req : List String), req.Nodup → (inputs.map Prod.fst).Nodup →
      (∃ k, (k ∈ req ∧ k ∉ inputs.map Prod.fst) ∨
        (k ∈ inputs.map Prod.fst ∧ k ∉ req)) →
      (testInputList function inputs req).2.isSome = true) ∧
    (testInputList testRegionExistsName
        [("project_id", GoValue.str "((var.project_id))")]
        ["project_id", "region"] =
      (["a required input region was not provided to test_region_exists!"],
        some "at least one required input was not provided to test_region_exists")) ∧
    strContains
      "a required input region was not provided to test_region_exists!"
      "region" = true :=
  ⟨testInputList_exact_set, by decide, by decide⟩

/-- C2 witness: invoking the region validator's contract with only
project_id supplied is rejected. -/
theorem testInputList_rejects_set_mismatch_witness :
    (testInputList "test_region_exists"
      [("project_id", GoValue.str "x")] ["project_id", "region"]).2.isSome = true :=
  testInputList_rejects_set_mismatch.1 "test_region_exists" _ _
    (by decide) (by decide) ⟨"region", Or.inl ⟨by decide, by decide⟩⟩

/-- C3 counterexample: no supplied input map with distinct keys passes
`testInputList` against any of the fixed required lists while its key
set differs from the required set — in particular none where an extra
key replaces a missing required key so the cardinalities match.  The
per-name missing check runs before the cardinality comparison, so the
claimed incorrect pass is unreachable. -/
theorem testInputList_no_incorrect_pass :
    ¬ ∃ (function : String) (inputs : List (String × GoValue))
        (req : List String), req ∈ fixedRequiredLists ∧
      (inputs.map Prod.fst).Nodup ∧
      (∃ k, (k ∈ req ∧ k ∉ inputs.map Prod.fst) ∨
        (k ∈ inputs.map Prod.fst ∧ k ∉ req)) ∧
      inputs.length = req.length ∧
      (testInputList function inputs req).2 = none := by
  rintro ⟨f, inputs, req, hreq, hnodup, hdiff, hlen, hpass⟩
  have hrn : req.Nodup := by
    rw [fixedRequiredLists] at hreq
    simp at hreq
    rcases hreq with rfl | rfl | rfl | rfl <;> decide
  have hsome := testInputList_exact_set f inputs req hrn hnodup hdiff
  rw [hpass] at hsome
  simp at hsome

/-- C3 amended: for the four fixed (duplicate-free) required-input
lists, `testInputList` is an exact set check — any supplied input map
whose key set differs from the required set fails, including when an
extra key replaces a missing required key one for one. -/
theorem testInputList_exact_for_fixed_lists (function : String)
    (inputs : List (String × GoValue)) (req : List String)
    (hreq : req ∈ fixedRequiredLists)
    (hnodup : (inputs.map Prod.fst).Nodup)
    (hdiff : ∃ k, (k ∈ req ∧ k ∉ inputs.map Prod.fst) ∨
      (k ∈ inputs.map Prod.fst ∧ k ∉ req)) :
    (testInputList function inputs req).2.isSome = true := by
  have hrn : req.Nodup := by
    rw [fixedRequiredLists] at hreq
    simp at hreq
    rcases hreq with rfl | rfl | rfl | rfl <;> decide
  exact testInputList_exact_set function inputs req hrn hnodup hdiff

/-- C3 amended witness: an extra key (zone) replacing a missing required
key (region), cardinalities equal, is still rejected. -/
theorem testInputList_exact_for_fixed_lists_witness :
    (testInputList "test_region_exists"
      [("project_id", GoValue.str "x"), ("zone", GoValue.str "y")]
      ["project_id", "region"]).2.isSome = true :=
  testInputList_exact_for_fixed_lists "test_region_exists" _ _
    (by decide) (by decide) ⟨"region", Or.inl ⟨by decide, by decide⟩⟩

/-- C7 counterexample: a table holding both a malformed `labels` entry
and a null value at key "foo" fails with the labels-type error, whose
message does not name "foo" — so not every failure caused by a table
containing a null value names the null key. -/
theorem validateVars_labels_error_shadows_nil_key :
    validateVars [("labels", GoValue.str "x"), ("foo", GoValue.null)] =
      (true, some "vars.labels must be a map") ∧
    ([("labels", GoValue.str "x"), ("foo", GoValue.null)].any
      (fun p => p.2.isNull)) = true ∧
    strContains "vars.labels must be a map" "foo" = false := by
  refine ⟨rfl, by decide, by decide⟩

/-- C7 amended: a table containing a null value always fails, and the
failure names a null key whenever the `labels` entry (if present) is a
proper string-keyed map; a `labels` entry that is not a string-keyed map
always yields the labels-type failure; absence of `project_id` sets only
the warning flag and on its own never causes a failure. -/
theorem validateVars_checks (vars : List (String × GoValue)) :
    (vars.any (fun p => p.2.isNull) = true →
      (validateVars vars).2.isSome = true) ∧
    (labelsOK vars = true → ∀ k, findNilKey vars = some k →
      (validateVars vars).2 = some ("global variable " ++ k ++ " was not set") ∧
      vars.any (fun p => p.1 == k && p.2.isNull) = true) ∧
    (∀ v, lookupA vars "labels" = some v → v.isMapVal = false →
      (validateVars vars).2 = some "vars.labels must be a map") ∧
    (lookupA vars "project_id" = none → (validateVars vars).1 = true) ∧
    (labelsOK vars = true → findNilKey vars = none →
      (validateVars vars).2 = none) := by
  refine ⟨?_, ?_, ?_, ?_, ?_⟩
  · intro h
    have hk := findNilKey_isSome vars h
    rcases hfk : findNilKey vars with _ | k
    · rw [hfk] at hk; simp at hk
    · rcases hl : lookupA vars "labels" with _ | v
      · simp only [validateVars, hl, hfk]
        simp
      · cases v <;> simp [validateVars, hl, hfk]
  · intro hlab k hk
    refine ⟨?_, findNilKey_mem vars k hk⟩
    rcases hl : lookupA vars "labels" with _ | v
    · simp [validateVars, hl, hk]
    · cases v <;> simp_all [labelsOK, validateVars]
  · intro v hv hmap
    cases v with
    | str s => simp [validateVars, hv]
    | strMap m => simp [GoValue.isMapVal] at hmap
    | null => simp [validateVars, hv]
    | other => simp [validateVars, hv]
  · intro h
    rcases hl : lookupA vars "labels" with _ | v
    · simp [validateVars, hl, h]
      split <;> simp
    · cases v <;> simp [validateVars, hl, h] <;> (try split) <;> simp
  · intro hlab hfk
    rcases hl : lookupA vars "labels" with _ | v
    · simp [validateVars, hl, hfk]
    · cases v <;> simp_all [labelsOK, validateVars]

/-- C1: severity policy semantics of the dispatch engine: under WARNING
with every name registered and some invocation failing, the run succeeds
with the warning flag set; under ERROR a failing invocation yields the
generic validation-failed error; under IGNORE the run succeeds with no
invocation executed; and (outside IGNORE) the run returns an error
exactly when some invocation was classified as an error. -/
theorem executeValidators_severity_policy (bc : BlueprintConfig)
    (cloud : CloudAPI) :
    (bc.Config.ValidationLevel = SeverityLevel.validationWarning →
      noPanic bc cloud bc.Config.Validators = true →
      allRegistered bc cloud bc.Config.Validators = true →
      anyFails bc cloud bc.Config.Validators = true →
      (executeValidators bc cloud).2 = GoRes.ok () ∧
      (executeValidators bc cloud).1.warned = true) ∧
    (bc.Config.ValidationLevel = SeverityLevel.validationError →
      noPanic bc cloud bc.Config.Validators = true →
      anyFails bc cloud bc.Config.Validators = true →
      (executeValidators bc cloud).2 = GoRes.err validationErrorMsg) ∧
    (bc.Config.ValidationLevel = SeverityLevel.validationIgnore →
      (executeValidators bc cloud).2 = GoRes.ok () ∧
      (executeValidators bc cloud).1.executed = [] ∧
      (executeValidators bc cloud).1.processed = []) ∧
    (bc.Config.ValidationLevel ≠ SeverityLevel.validationIgnore →
      noPanic bc cloud bc.Config.Validators = true →
      ((executeValidators bc cloud).2 = GoRes.err validationErrorMsg ↔
        bc.Config.Validators.any (invErrored bc cloud) = true)) := by
  refine ⟨?_, ?_, ?_, ?_⟩
  · intro hl hnp hreg hfail
    have h1 : bc.Config.ValidationLevel ≠ SeverityLevel.validationIgnore := by
      rw [hl]; decide
    have herr : bc.Config.Validators.any (invErrored bc cloud) = false := by
      rw [List.any_eq_false]
      intro v hv
      have hr := List.all_eq_true.mp hreg v hv
      rcases hri : runInv bc cloud v with _ | r
      · rw [invExecuted, hri] at hr; simp at hr
      · cases r with
        | ok u => simp [invErrored, hri]
        | err e => simp [invErrored, hri, hl]
        | panic => simp [invErrored, hri]
    constructor
    · rw [executeValidators_result bc cloud h1 hnp, herr]
      simp
    · rw [executeValidators_state bc cloud h1 hnp]
      simp only
      rw [List.any_eq_true]
      obtain ⟨v, hv, hfv⟩ := List.any_eq_true.mp hfail
      refine ⟨v, hv, ?_⟩
      rcases hri : runInv bc cloud v with _ | r
      · rw [hri] at hfv; simp at hfv
      · cases r with
        | ok u => rw [hri] at hfv; simp at hfv
        | err e => simp [invWarned, hri, hl]
        | panic => rw [hri] at hfv; simp at hfv
  · intro hl hnp hfail
    have h1 : bc.Config.ValidationLevel ≠ SeverityLevel.validationIgnore := by
      rw [hl]; decide
    have herr : bc.Config.Validators.any (invErrored bc cloud) = true := by
      rw [List.any_eq_true]
      obtain ⟨v, hv, hfv⟩ := List.any_eq_true.mp hfail
      refine ⟨v, hv, ?_⟩
      rcases hri : runInv bc cloud v with _ | r
      · rw [hri] at hfv; simp at hfv
      · cases r with
        | ok u => rw [hri] at hfv; simp at hfv
        | err e => simp [invErrored, hri, hl]
        | panic => rw [hri] at hfv; simp at hfv
    rw [executeValidators_result bc cloud h1 hnp, herr]
    simp
  · intro hl
    rw [executeValidators, if_pos hl]
    exact ⟨rfl, rfl, rfl⟩
  · intro h1 hnp
    rw [executeValidators_result bc cloud h1 hnp]
    by_cases h : bc.Config.Validators.any (invErrored bc cloud) = true
    · simp [h]
    · rw [Bool.not_eq_true] at h
      simp [h]

/-- C4: the registry misses exactly the names outside the four
implemented validators; outside IGNORE, an invocation list containing an
unregistered name always produces the validation-failed error — under
WARNING as well as ERROR — with the "not an implemented validator" log
line; IGNORE skips everything and succeeds. -/
theorem executeValidators_unimplemented_always_error (bc : BlueprintConfig)
    (cloud : CloudAPI) :
    (∀ name, getValidators bc cloud name = none ↔ name ∉ registryNames) ∧
    (bc.Config.ValidationLevel ≠ SeverityLevel.validationIgnore →
      noPanic bc cloud bc.Config.Validators = true →
      ∀ v ∈ bc.Config.Validators, v.Validator ∉ registryNames →
        (executeValidators bc cloud).2 = GoRes.err validationErrorMsg ∧
        (v.Validator ++ " is not an implemented validator") ∈
          (executeValidators bc cloud).1.logs) ∧
    (bc.Config.ValidationLevel = SeverityLevel.validationIgnore →
      (executeValidators bc cloud).2 = GoRes.ok ()) := by
  have hreg : ∀ name, getValidators bc cloud name = none ↔ name ∉ registryNames := by
    intro name
    by_cases h0 : name = testProjectExistsName
    · subst h0
      rw [getValidators, if_pos rfl]
      constructor
      · intro h; cases h
      · intro h
        exact absurd (by decide : testProjectExistsName ∈ registryNames) h
    · by_cases h1 : name = testRegionExistsName
      · subst h1
        rw [getValidators, if_neg h0, if_pos rfl]
        constructor
        · intro h; cases h
        · intro h
          exact absurd (by decide : testRegionExistsName ∈ registryNames) h
      · by_cases h2 : name = testZoneExistsName
        · subst h2
          rw [getValidators, if_neg h0, if_neg h1, if_pos rfl]
          constructor
          · intro h; cases h
          · intro h
            exact absurd (by decide : testZoneExistsName ∈ registryNames) h
        · by_cases h3 : name = testZoneInRegionName
          · subst h3
            rw [getValidators, if_neg h0, if_neg h1, if_neg h2, if_pos rfl]
            constructor
            · intro h; cases h
            · intro h
              exact absurd (by decide : testZoneInRegionName ∈ registryNames) h
          · rw [getValidators, if_neg h0, if_neg h1, if_neg h2, if_neg h3]
            simp [registryNames, h0, h1, h2, h3]
  refine ⟨hreg, ?_, ?_⟩
  · intro h1 hnp v hv hn
    have hri : runInv bc cloud v = none := by
      rw [runInv, (hreg v.Validator).mpr hn]
    have herr : bc.Config.Validators.any (invErrored bc cloud) = true := by
      rw [List.any_eq_true]
      exact ⟨v, hv, by simp [invErrored, hri]⟩
    constructor
    · rw [executeValidators_result bc cloud h1 hnp, herr]
      simp
    · rw [executeValidators_state bc cloud h1 hnp]
      simp only
      rw [List.mem_flatten]
      refine ⟨invLog bc cloud v, List.mem_map_of_mem _ hv, ?_⟩
      simp [invLog, hri]
  · intro hl
    rw [executeValidators, if_pos hl]

/-- C5: the dispatch engine is exhaustive, not fail-fast: outside IGNORE
(and absent panics) every invocation is looked up, every registered one
is executed in declaration order, and the log stream concatenates every
invocation's classification — failures of earlier invocations never
suppress later ones. -/
theorem executeValidators_exhaustive (bc : BlueprintConfig) (cloud : CloudAPI)
    (h1 : bc.Config.ValidationLevel ≠ SeverityLevel.validationIgnore)
    (h2 : noPanic bc cloud bc.Config.Validators = true) :
    (executeValidators bc cloud).1.processed =
      bc.Config.Validators.map validatorConfig.Validator ∧
    (executeValidators bc cloud).1.executed =
      (bc.Config.Validators.filter
        (invExecuted bc cloud)).map validatorConfig.Validator ∧
    (executeValidators bc cloud).1.logs =
      (bc.Config.Validators.map (invLog bc cloud)).flatten := by
  refine ⟨?_, ?_, ?_⟩ <;> rw [executeValidators_state bc cloud h1 h2]

/-- Global table fixture used by the dispatch witnesses. -/
def varsW : List (String × GoValue) :=
  [("project_id", GoValue.str "my-proj"), ("region", GoValue.str "us-central1")]

/-- An invocation of the project validator whose provider query fails
under `cloud0`. -/
def invFail : validatorConfig :=
  ⟨"test_project_exists", [("project_id", GoValue.str "((var.project_id))")]⟩

/-- An invocation of the region validator that succeeds under `cloud0`. -/
def invOk : validatorConfig :=
  ⟨"test_region_exists",
    [("project_id", GoValue.str "((var.project_id))"),
      ("region", GoValue.str "((var.region))")]⟩

/-- An invocation naming an unregistered validator. -/
def invMiss : validatorConfig := ⟨"test_gpu_exists", []⟩

/-- Provider stub: the project query fails, all others succeed. -/
def cloud0 : CloudAPI :=
  ⟨fun _ => some "project not found", fun _ _ => none, fun _ _ => none,
    fun _ _ _ => none⟩

/-- One failing invocation under policy WARNING. -/
def bcWarn : BlueprintConfig :=
  ⟨⟨varsW, SeverityLevel.validationWarning, [invFail]⟩⟩

/-- One failing invocation under policy ERROR. -/
def bcErr : BlueprintConfig :=
  ⟨⟨varsW, SeverityLevel.validationError, [invFail]⟩⟩

/-- One failing invocation under policy IGNORE. -/
def bcIgnore : BlueprintConfig :=
  ⟨⟨varsW, SeverityLevel.validationIgnore, [invFail]⟩⟩

/-- One unregistered invocation under policy WARNING. -/
def bcMiss : BlueprintConfig :=
  ⟨⟨varsW, SeverityLevel.validationWarning, [invMiss]⟩⟩

/-- One unregistered invocation under policy IGNORE. -/
def bcMissIgnore : BlueprintConfig :=
  ⟨⟨varsW, SeverityLevel.validationIgnore, [invMiss]⟩⟩

/-- Three invocations (fail, succeed, fail) under policy ERROR. -/
def bcThree : BlueprintConfig :=
  ⟨⟨varsW, SeverityLevel.validationError, [invFail, invOk, invFail]⟩⟩

/-- C1 witness: a failing invocation under WARNING yields success with
the warning flag; the same under ERROR yields the generic error; under
IGNORE nothing runs; and the error outcome tracks the error
classifications. -/
theorem executeValidators_severity_policy_witness :
    ((executeValidators bcWarn cloud0).2 = GoRes.ok () ∧
      (executeValidators bcWarn cloud0).1.warned = true) ∧
    (executeValidators bcErr cloud0).2 = GoRes.err validationErrorMsg ∧
    ((executeValidators bcIgnore cloud0).2 = GoRes.ok () ∧
      (executeValidators bcIgnore cloud0).1.executed = [] ∧
      (executeValidators bcIgnore cloud0).1.processed = []) ∧
    ((executeValidators bcErr cloud0).2 = GoRes.err validationErrorMsg ↔
      bcErr.Config.Validators.any (invErrored bcErr cloud0) = true) :=
  ⟨(executeValidators_severity_policy bcWarn cloud0).1 rfl (by decide)
      (by decide) (by decide),
    (executeValidators_severity_policy bcErr cloud0).2.1 rfl (by decide)
      (by decide),
    (executeValidators_severity_policy bcIgnore cloud0).2.2.1 rfl,
    (executeValidators_severity_policy bcErr cloud0).2.2.2 (by decide)
      (by decide)⟩

/-- C4 witness: the unregistered name fails the run even under WARNING,
with the "not an implemented validator" log line; under IGNORE it is
skipped. -/
theorem executeValidators_unimplemented_always_error_witness :
    (executeValidators bcMiss cloud0).2 = GoRes.err validationErrorMsg ∧
    ("test_gpu_exists" ++ " is not an implemented validator") ∈
      (executeValidators bcMiss cloud0).1.logs ∧
    (executeValidators bcMissIgnore cloud0).2 = GoRes.ok () := by
  have h := (executeValidators_unimplemented_always_error bcMiss cloud0).2.1
    (by decide) (by decide) invMiss (List.mem_cons_self _ _) (by decide)
  exact ⟨h.1, h.2,
    (executeValidators_unimplemented_always_error bcMissIgnore cloud0).2.2 rfl⟩

/-- C5 witness: with three invocations where the first and third fail
and the second succeeds, all three are looked up and executed and both
failures are logged. -/
theorem executeValidators_exhaustive_witness :
    (executeValidators bcThree cloud0).1.processed =
      ["test_project_exists", "test_region_exists", "test_project_exists"] ∧
    (executeValidators bcThree cloud0).1.executed =
      ["test_project_exists", "test_region_exists", "test_project_exists"] ∧
    (executeValidators bcThree cloud0).1.logs =
      ["error: project not found", "error: project not found"] := by
  obtain ⟨h1, h2, h3⟩ :=
    executeValidators_exhaustive bcThree cloud0 (by decide) (by decide)
  refine ⟨?_, ?_, ?_⟩
  · rw [h1]; decide
  · rw [h2]; decide
  · rw [h3]; decide

/-- C6 witness: `((var.project_id))` resolves to "my-proj" from the
table, and `((var.missing_key))` fails naming the reference. -/
theorem getStringValue_literal_lookup_witness :
    getStringValue [("project_id", GoValue.str "my-proj")]
      (GoValue.str "((var.project_id))") = GoRes.ok "my-proj" ∧
    getStringValue [("project_id", GoValue.str "my-proj")]
      (GoValue.str "((var.missing_key))") =
      GoRes.err ("the value " ++ "((var.missing_key))" ++
        " is not a global variable or was not defined") := by
  have h1 := getStringValue_literal_lookup
    [("project_id", GoValue.str "my-proj")]
    "((var.project_id))" "project_id" [] (by decide) (by decide)
  have h2 := getStringValue_literal_lookup
    [("project_id", GoValue.str "my-proj")]
    "((var.missing_key))" "missing_key" [] (by decide) (by decide)
  exact ⟨h1.1 "my-proj" rfl, (h2.2.1 rfl).1⟩

/-- C7 amended witness: a null value at "foo" is reported naming "foo"
when labels are fine; a null labels entry gives the labels-type error;
an empty table sets the project_id warning flag. -/
theorem validateVars_checks_witness :
    (validateVars [("a", GoValue.null)]).2.isSome = true ∧
    (validateVars [("project_id", GoValue.str "p"), ("foo", GoValue.null)]).2 =
      some ("global variable " ++ "foo" ++ " was not set") ∧
    (validateVars [("labels", GoValue.null)]).2 =
      some "vars.labels must be a map" ∧
    (validateVars []).1 = true :=
  ⟨(validateVars_checks [("a", GoValue.null)]).1 (by decide),
    ((validateVars_checks [("project_id", GoValue.str "p"),
      ("foo", GoValue.null)]).2.1 (by decide) "foo" rfl).1,
    (validateVars_checks [("labels", GoValue.null)]).2.2.1 GoValue.null rfl
      (by decide),
    (validateVars_checks []).2.2.2.1 rfl⟩

/-- Module metadata fixture: one input in_a, one output out_a. -/
def infoA : ResourceInfo := ⟨[⟨"in_a", true⟩], [⟨"out_a", false⟩]⟩

/-- A resource declaring the unknown output out_bad. -/
def resBad : Resource := ⟨"mod1", "modules/a", "terraform", [], ["out_bad"]⟩

/-- A resource declaring no outputs. -/
def resNone : Resource := ⟨"mod2", "modules/a", "terraform", [], []⟩

/-- A resource with the unknown setting bad_key. -/
def resSet : Resource :=
  ⟨"mod3", "modules/a", "terraform", [("bad_key", GoValue.str "v")], []⟩

/-- A resource whose settings are accepted inputs. -/
def resGood : Resource :=
  ⟨"mod4", "modules/a", "terraform", [("in_a", GoValue.str "v")], []⟩

/-- C8 witness: the unknown output out_bad is reported naming the
resource and the output; a resource without outputs passes and the
outputs map is not materialized. -/
theorem validateOutputs_spec_witness :
    (∃ o, o ∈ resBad.Outputs ∧ o ∉ infoA.Outputs.map VarInfo.Name ∧
      (validateOutputs resBad infoA).2 =
        some (invalidOutputMsg ++ ", module: " ++ resBad.ID ++
          " output: " ++ o)) ∧
    validateOutputs resNone infoA = (false, none) :=
  ⟨(validateOutputs_spec resBad infoA).1 ⟨"out_bad", by decide, by decide⟩,
    (validateOutputs_spec resNone infoA).2 rfl⟩

/-- C9 witness: the unknown setting bad_key is reported naming the
resource and key; accepted settings pass, whatever the required flag. -/
theorem validateSettings_spec_witness :
    (∃ k, k ∈ resSet.Settings.map Prod.fst ∧
      k ∉ infoA.Inputs.map VarInfo.Name ∧
      validateSettings resSet infoA =
        some (extraSettingMsg ++ ": Module ID: " ++ resSet.ID ++
          " Setting: " ++ k)) ∧
    validateSettings resGood infoA = none ∧
    validateSettings resGood { infoA with Inputs := [⟨"in_a", false⟩] } =
      validateSettings resGood infoA :=
  ⟨(validateSettings_spec resSet infoA).1 ⟨"bad_key", by decide, by decide⟩,
    (validateSettings_spec resGood infoA).2.1
      (by intro k hk; simpa [resGood, infoA] using hk),
    (validateSettings_spec resGood infoA).2.2 [⟨"in_a", false⟩] (by decide)⟩
